import Mathlib

/-!
# Verification of `db_query_profiler` (`query_timer.py`)

A shallow embedding of `src/db_query_profiler/query_timer.py` in Lean 4.

Modelling conventions:

* Python floats are modelled as rationals (`ℚ`); the claims under scrutiny
  are about control flow and exact arithmetic identities, not rounding of
  binary doubles.
* Python exceptions are modelled with an explicit error type `Err`.
  A call that may raise returns its (mutated) state together with
  `Option Err`: mutations performed before the raise persist, exactly as
  in Python, and `some e` means the exception `e` propagates to the caller.
* The wrapped work of a `Runner` (`self.runner`, a zero-argument Python
  callable) is modelled generically: a runner stores a value of some type
  `W` (the closure data), and executing the work is a function
  `exec : W → σ → σ × Except Err ℚ` that transforms an ambient world `σ`
  (e.g. a trace of executed statements) and returns either the elapsed
  wall-clock time of this execution or the exception it raised.
* The file system is modelled as a tree of nodes (`FSNode`), and the text
  contents available at invocation time as a map `String → Option String`
  (path ↦ text, `none` meaning the file does not exist at that moment).
-/

/-- Exceptions that the profiler's code paths can raise. -/
inductive Err where
  /-- Python `FileNotFoundError` (raised by `time_queries` validation,
  or by `Path.read_text` on a missing file). -/
  | fileNotFound (msg : String)
  /-- Python `NotADirectoryError` (raised by `Path.glob` when iterated
  over a path that exists but is not a directory). -/
  | notADirectory (msg : String)
  /-- An exception raised by the database connection's `execute`. -/
  | dbError (msg : String)
  deriving DecidableEq, Repr

/-- Embedding of `_safe_divide(numerator, denominator)` from
`query_timer.py`:

```python
return denominator and numerator / denominator
```

Python's `and` returns its left operand when that operand is falsy
(a zero number), and its right operand otherwise; so the result is
`denominator` itself (i.e. zero) when `denominator == 0`, and
`numerator / denominator` otherwise. -/
def safe_divide (numerator denominator : ℚ) : ℚ :=
  if denominator = 0 then denominator else numerator / denominator

/-- The `Runner` class: a named wrapper around one zero-argument unit of
work, with the mutable counters `repeat` and `total_time`.  The closure
data of the wrapped Python callable is a value of type `W`.
(The Python attribute `repeat` is spelled `rep` here because `repeat` is
a Lean keyword.) -/
structure Runner (W : Type) where
  /-- The `runner` attribute: closure data of the wrapped callable. -/
  runner : W
  /-- The `name` attribute. -/
  name : String
  /-- The `repeat` counter; starts at `0`. -/
  rep : ℕ
  /-- The `total_time` accumulator; starts at `0.0`. -/
  total_time : ℚ
  deriving Repr, DecidableEq

/-- Constructor `Runner.__init__(runner, name)`: fresh counters. -/
def Runner.mk0 {W : Type} (runner : W) (name : String) : Runner W :=
  { runner := runner, name := name, rep := 0, total_time := 0 }

/-- Invocation `Runner.__call__(time_it)`:

```python
if time_it:
    self.repeat += 1
    self.total_time += timeit.timeit(self.runner, number=1)
else:
    self.runner()
```

`exec` is the semantics of executing the wrapped work once (what
`timeit.timeit(self.runner, number=1)` and `self.runner()` both do to the
world), returning the elapsed time or the exception raised.  Note the
order in the timed branch: `self.repeat += 1` completes *before* the work
runs, so if the work raises, the incremented `repeat` persists while
`total_time` is left unchanged. -/
def Runner.call {W σ : Type} (exec : W → σ → σ × Except Err ℚ)
    (r : Runner W) (s : σ) (time_it : Bool) :
    Runner W × σ × Option Err :=
  if time_it then
    let r1 : Runner W := { r with rep := r.rep + 1 }
    match exec r.runner s with
    | (s1, Except.ok t) => ({ r1 with total_time := r1.total_time + t }, s1, none)
    | (s1, Except.error e) => (r1, s1, some e)
  else
    match exec r.runner s with
    | (s1, Except.ok _) => (r, s1, none)
    | (s1, Except.error e) => (r, s1, some e)

/-- Property `Runner.average_time`:

```python
return _safe_divide(self.total_time, self.repeat)
```
-/
def Runner.average_time {W : Type} (r : Runner W) : ℚ :=
  safe_divide r.total_time (r.rep : ℚ)

/-!
## Number formatting

Embeddings of the Python format specifiers used by
`Runner.format_runtime`: `:.8f` (fixed-point, 8 decimal places) and
`:.1%` (multiply by 100, fixed-point with 1 decimal place, append `%`).
CPython's fixed-point formatting rounds to nearest, ties to even.
-/

/-- Rounding to the nearest integer, ties to even, as used by fixed-point
formatting. -/
def roundHalfEven (x : ℚ) : ℤ :=
  let fl : ℤ := ⌊x⌋
  let fr : ℚ := x - (fl : ℚ)
  if fr < 1 / 2 then fl
  else if 1 / 2 < fr then fl + 1
  else if fl % 2 = 0 then fl else fl + 1

/-- Left-pads a decimal digit string with zeros to the requested width. -/
def padZeros (width : ℕ) (s : String) : String :=
  String.mk (List.replicate (width - s.length) '0') ++ s

/-- Fixed-point formatting of a non-negative rational with `prec` decimal
places (the body of Python's `:.Nf` for non-negative values). -/
def fmtFixedNN (prec : ℕ) (q : ℚ) : String :=
  let n : ℕ := (roundHalfEven (q * (10 : ℚ) ^ prec)).toNat
  let ip : ℕ := n / 10 ^ prec
  let fp : ℕ := n % 10 ^ prec
  if prec = 0 then toString ip
  else toString ip ++ "." ++ padZeros prec (toString fp)

/-- Python's `:.Nf` format specifier. -/
def fmtFixed (prec : ℕ) (q : ℚ) : String :=
  if q < 0 then "-" ++ fmtFixedNN prec (-q) else fmtFixedNN prec q

/-- Python's `:.1%` format specifier: multiply by 100, format with one
decimal place, append a percent sign. -/
def fmtPercent1 (q : ℚ) : String :=
  fmtFixed 1 (q * 100) ++ "%"

/-- Method `Runner.format_runtime(total_avg_time)`: the f-string
interpolating `self.name`, `self.average_time` under `:.8f`, and
`_safe_divide(self.average_time, total_avg_time)` under `:.1%`, in the
shape `name: AVGs (PCT)`. -/
def Runner.format_runtime {W : Type} (r : Runner W) (total_avg_time : ℚ) : String :=
  r.name ++ ": " ++ fmtFixed 8 r.average_time ++ "s ("
    ++ fmtPercent1 (safe_divide r.average_time total_avg_time) ++ ")"

/-!
## File-system model

A directory entry is either a regular file (with its text content) or a
subdirectory (with its own entries).  `Path.glob("*")` on a directory
yields its immediate children; `Path.is_file()` distinguishes regular
files from directories.
-/

/-- One node of the file-system tree. -/
inductive FSNode where
  /-- A regular file with its name and full text content. -/
  | file (name : String) (text : String)
  /-- A subdirectory with its name and its immediate children. -/
  | dir (name : String) (children : List FSNode)

/-- The final path component of a node (Python `path.name`). -/
def FSNode.name : FSNode → String
  | FSNode.file n _ => n
  | FSNode.dir n _ => n

/-- Python `path.is_file()`: true for regular files, false for
directories. -/
def FSNode.isFile : FSNode → Bool
  | FSNode.file _ _ => true
  | FSNode.dir _ _ => false

/-- Python `path.suffix` (from CPython `pathlib`): the substring starting
at the last dot of the final path component, provided that dot is neither
the first nor past the last character; otherwise the empty string. -/
def pathSuffix (name : String) : String :=
  let cs := name.toList
  let ri := cs.reverse.indexOf '.'
  if ri < cs.length then
    let i := cs.length - 1 - ri
    if 0 < i ∧ i < cs.length - 1 then String.mk (cs.drop i) else ""
  else ""

/-- The `warnings.warn` message emitted by `_get_query_filepaths` for a
file whose suffix is not `.sql`. -/
def warnMsg (path : String) : String :=
  "File " ++ path ++ " does not end with \x27.sql\x27. "
    ++ "Non-SQL code might attempt to be executed."

/-- Embedding of `_get_query_filepaths(directory)`:

```python
for path in directory.glob("*"):
    if path.is_file():
        if path.suffix != ".sql":
            warnings.warn(...)
        yield path
```

The argument is the directory's immediate children (what `glob("*")`
iterates over); the result is the list of yielded paths together with the
warnings emitted along the way. -/
def get_query_filepaths : List FSNode → List FSNode × List String
  | [] => ([], [])
  | p :: ps =>
    let rest := get_query_filepaths ps
    if p.isFile then
      if pathSuffix p.name ≠ ".sql" then
        (p :: rest.1, warnMsg p.name :: rest.2)
      else
        (p :: rest.1, rest.2)
    else rest

/-- Embedding of `_create_query_runners(directory, db_conn)`:

```python
return [
    Runner(
        runner=lambda f=file: db_conn.execute(f.read_text()),
        name=file.name,
    )
    for file in _get_query_filepaths(directory)
]
```

The default argument `f=file` freezes the *path* of the file into the
lambda at construction time; the closure datum of each `Runner` is
therefore that path (here `dirPath ++ "/" ++ name`).  `f.read_text()` is
part of the lambda's body, so it runs at every invocation (see
`queryExec`). -/
def create_query_runners (dirPath : String) (children : List FSNode) :
    List (Runner String) :=
  (get_query_filepaths children).1.map (fun file =>
    Runner.mk0 (dirPath ++ "/" ++ file.name) file.name)

/-- Python `Path.read_text()` against the file contents available at the
moment of the call: returns the text, or raises `FileNotFoundError` if no
file exists at the path. -/
def read_text (fs : String → Option String) (path : String) :
    Except Err String :=
  match fs path with
  | some text => Except.ok text
  | none => Except.error (Err.fileNotFound path)

/-- Execution semantics of the lambda built by `_create_query_runners`:
`db_conn.execute(f.read_text())`.  `fs` is the file contents available at
invocation time; `db` is the database connection (statement text ↦
elapsed time, or a raised exception); the world is the trace of statement
texts passed to `db_conn.execute`, in order. -/
def queryExec (fs : String → Option String) (db : String → Except Err ℚ)
    (path : String) (tr : List String) : List String × Except Err ℚ :=
  match read_text fs path with
  | Except.error e => (tr, Except.error e)
  | Except.ok text =>
    match db text with
    | Except.ok t => (tr ++ [text], Except.ok t)
    | Except.error e => (tr ++ [text], Except.error e)

/-!
## The benchmark loop
-/

/-- One pass of `for runner in runners: runner(...)`: each runner is
invoked once, in list order; a raised exception aborts the loop (the
runners after the failing one are not invoked and keep their state). -/
def runList {W σ : Type} (exec : W → σ → σ × Except Err ℚ)
    (time_it : Bool) :
    List (Runner W) → σ → List (Runner W) × σ × Option Err
  | [], s => ([], s, none)
  | r :: rs, s =>
    match Runner.call exec r s time_it with
    | (r1, s1, none) =>
      let rest := runList exec time_it rs s1
      (r1 :: rest.1, rest.2.1, rest.2.2)
    | (r1, s1, some e) => (r1 :: rs, s1, some e)

/-- The timed loop of `_run_runners`:

```python
for _ in tqdm.trange(repeat):
    for runner in runners:
        runner()
```

(`tqdm.trange(repeat)` is `range(repeat)` with a progress bar, purely
observational.)  A raised exception aborts the remaining passes. -/
def timedPasses {W σ : Type} (exec : W → σ → σ × Except Err ℚ) :
    ℕ → List (Runner W) → σ → List (Runner W) × σ × Option Err
  | 0, rs, s => (rs, s, none)
  | n + 1, rs, s =>
    match runList exec true rs s with
    | (rs1, s1, none) => timedPasses exec n rs1 s1
    | (rs1, s1, some e) => (rs1, s1, some e)

/-- Embedding of `_run_runners(runners, repeat)`: the untimed priming
pass (`runner(time_it=False)` for each runner, in order) followed by
`repeat` timed passes. -/
def run_runners {W σ : Type} (exec : W → σ → σ × Except Err ℚ)
    (runners : List (Runner W)) (rpt : ℕ) (s : σ) :
    List (Runner W) × σ × Option Err :=
  match runList exec false runners s with
  | (rs1, s1, none) => timedPasses exec rpt rs1 s1
  | (rs1, s1, some e) => (rs1, s1, some e)

/-- Embedding of `_print_runner_stats(runners)`:

```python
total_avg_time = sum(runner.average_time for runner in runners)
for runner in runners:
    print(runner.format_runtime(total_avg_time))
```

The result is the list of printed lines, in print order. -/
def print_runner_stats {W : Type} (runners : List (Runner W)) :
    List String :=
  let total_avg_time := (runners.map Runner.average_time).sum
  runners.map (fun r => r.format_runtime total_avg_time)

/-- The file contents reachable under a directory during a single run of
`time_queries`: the path `dirPath/name` maps to the text of the regular
file `name` among the directory's immediate children. -/
def fsOfDir (dirPath : String) (children : List FSNode) :
    String → Option String :=
  fun p =>
    (children.find? (fun c => c.isFile && (dirPath ++ "/" ++ c.name) == p)).bind
      (fun c =>
        match c with
        | FSNode.file _ text => some text
        | FSNode.dir _ _ => none)

/-- Embedding of the public entry point `time_queries(conn, repeat,
directory)`:

```python
directory = pathlib.Path(directory)
if not directory.exists():
    raise FileNotFoundError(f"Directory ... does not exist.")
runners = _create_query_runners(directory=directory, db_conn=conn)
_run_runners(runners=runners, repeat=repeat)
_print_runner_stats(runners=runners)
```

`node` is the file-system node at path `dirPath` (`none` when no such
path exists, so `directory.exists()` is false).  When the path exists but
is a regular file, `directory.exists()` passes and the run proceeds to
discovery, where iterating `directory.glob("*")` raises
`NotADirectoryError` (CPython `os.scandir` on a non-directory).  The
result pairs the trace of statement texts executed against the database
with either the raised exception or the printed summary lines. -/
def time_queries (db : String → Except Err ℚ) (rpt : ℕ)
    (dirPath : String) (node : Option FSNode) :
    List String × Except Err (List String) :=
  match node with
  | none =>
    ([], Except.error (Err.fileNotFound
      ("Directory \x27" ++ dirPath ++ "\x27 does not exist.")))
  | some (FSNode.file _ _) =>
    ([], Except.error (Err.notADirectory dirPath))
  | some (FSNode.dir _ children) =>
    let runners := create_query_runners dirPath children
    let fs := fsOfDir dirPath children
    match run_runners (queryExec fs db) runners rpt [] with
    | (rs1, tr, none) => (tr, Except.ok (print_runner_stats rs1))
    | (_, tr, some e) => (tr, Except.error e)

/-- Execution semantics used to analyse the benchmark loop in isolation:
each runner's closure datum is an index `i`; the world is the trace of
work executions (indices, in execution order); `ω i k` is the wall-clock
time of the k-th execution of runner `i`'s work, which never raises. -/
def traceExec (ω : ℕ → ℕ → ℚ) (i : ℕ) (s : List ℕ) :
    List ℕ × Except Err ℚ :=
  (s ++ [i], Except.ok (ω i (s.count i)))

/-- A unit of work whose execution always raises (models a database call
that fails). -/
def failingWork : Unit → Unit → Unit × Except Err ℚ :=
  fun _ u => (u, Except.error (Err.dbError "boom"))

/-!
## Lemmas about the benchmark loop
-/

/-- An untimed pass (the priming pass) executes every work once, in list
order, and leaves every runner — its `repeat` and `total_time` included —
exactly as it was. -/
theorem runList_false_eq (ω : ℕ → ℕ → ℚ) (rs : List (Runner ℕ)) (s : List ℕ) :
    runList (traceExec ω) false rs s =
      (rs, s ++ rs.map (fun r => r.runner), none) := by
  induction rs generalizing s with
  | nil => simp [runList]
  | cons r rs ih => simp [runList, Runner.call, traceExec, ih]

/-- A timed pass executes every work once in list order, raises nothing,
and increments every runner's `repeat` by exactly one (names and work
identities unchanged). -/
theorem runList_true_spec (ω : ℕ → ℕ → ℚ) (rs : List (Runner ℕ)) (s : List ℕ) :
    (runList (traceExec ω) true rs s).2.2 = none ∧
    (runList (traceExec ω) true rs s).2.1 = s ++ rs.map (fun r => r.runner) ∧
    (runList (traceExec ω) true rs s).1.map (fun r => (r.runner, r.name, r.rep)) =
      rs.map (fun r => (r.runner, r.name, r.rep + 1)) := by
  induction rs generalizing s with
  | nil => simp [runList]
  | cons r rs ih =>
    obtain ⟨h1, h2, h3⟩ := ih (s ++ [r.runner])
    simp [runList, Runner.call, traceExec, h1, h2, h3]

/-- Iterating timed passes `N` times executes the pass order `N` times
over, raises nothing, and adds `N` to every runner's `repeat`. -/
theorem timedPasses_spec (ω : ℕ → ℕ → ℚ) (N : ℕ) (rs : List (Runner ℕ))
    (s : List ℕ) :
    (timedPasses (traceExec ω) N rs s).2.2 = none ∧
    (timedPasses (traceExec ω) N rs s).2.1 =
      s ++ (List.replicate N (rs.map (fun r => r.runner))).flatten ∧
    (timedPasses (traceExec ω) N rs s).1.map (fun r => (r.runner, r.name, r.rep)) =
      rs.map (fun r => (r.runner, r.name, r.rep + N)) := by
  induction N generalizing rs s with
  | zero => simp [timedPasses]
  | succ n ih =>
    obtain ⟨h1, h2, h3⟩ := runList_true_spec ω rs s
    rcases hres : runList (traceExec ω) true rs s with ⟨rs1, s1, e1⟩
    rw [hres] at h1 h2 h3
    simp only at h1 h2 h3
    subst h1 h2
    obtain ⟨g1, g2, g3⟩ := ih rs1 (s ++ rs.map (fun r => r.runner))
    have hfst : rs1.map (fun r => r.runner) = rs.map (fun r => r.runner) := by
      have := congrArg (List.map (fun p : ℕ × String × ℕ => p.1)) h3
      simpa [List.map_map, Function.comp] using this
    refine ⟨?_, ?_, ?_⟩
    · simpa [timedPasses, hres] using g1
    · rw [show (timedPasses (traceExec ω) (n + 1) rs s) =
          timedPasses (traceExec ω) n rs1 (s ++ rs.map (fun r => r.runner)) by
        simp [timedPasses, hres]]
      rw [g2, hfst]
      simp [List.replicate_succ, List.flatten_cons, List.append_assoc]
    · rw [show (timedPasses (traceExec ω) (n + 1) rs s) =
          timedPasses (traceExec ω) n rs1 (s ++ rs.map (fun r => r.runner)) by
        simp [timedPasses, hres]]
      rw [g3]
      have step : rs1.map (fun r => (r.runner, r.name, r.rep + n)) =
          (rs1.map (fun r => (r.runner, r.name, r.rep))).map
            (fun p : ℕ × String × ℕ => (p.1, p.2.1, p.2.2 + n)) := by
        simp [List.map_map, Function.comp]
      rw [step, h3, List.map_map]
      apply List.map_congr_left
      intro r _
      simp [Function.comp]
      omega

/-- The whole of `_run_runners` equals the timed phase started after the
priming pass (which only extends the trace by one pass order). -/
theorem run_runners_eq (ω : ℕ → ℕ → ℚ) (rs : List (Runner ℕ)) (N : ℕ)
    (s : List ℕ) :
    run_runners (traceExec ω) rs N s =
      timedPasses (traceExec ω) N rs (s ++ rs.map (fun r => r.runner)) := by
  simp [run_runners, runList_false_eq]

/-- Occurrence counting over a flattened replication. -/
theorem count_flatten_replicate (N : ℕ) (l : List ℕ) (i : ℕ) :
    ((List.replicate N l).flatten).count i = N * l.count i := by
  induction N with
  | zero => simp
  | succ n ih =>
    simp [List.replicate_succ, List.flatten_cons, List.count_append, ih,
      Nat.succ_mul]
    omega

/-!
## Claims
-/

/-- C4: for every numerator >= 0 and denominator >= 0, the safe-division
function returns numerator/denominator when the denominator is nonzero
and 0.0 when it is zero; in particular divide(1.0, 2.0) = 0.5,
divide(1.0, 0.0) = 0.0 and divide(0.0, 0.0) = 0.0. -/
theorem safe_divide_spec :
    (∀ n d : ℚ, 0 ≤ n → 0 ≤ d →
      (d ≠ 0 → safe_divide n d = n / d) ∧ (d = 0 → safe_divide n d = 0)) ∧
    safe_divide 1 2 = 1 / 2 ∧ safe_divide 1 0 = 0 ∧ safe_divide 0 0 = 0 := by
  refine ⟨fun n d _ _ => ⟨fun h => by simp [safe_divide, h],
    fun h => by simp [safe_divide, h]⟩, by norm_num [safe_divide], rfl, rfl⟩

/-- Witness for C4: the theorem applied at numerator 1 and denominator 2. -/
theorem safe_divide_spec_witness :
    (0:ℚ) ≤ 1 ∧ (0:ℚ) ≤ 2 ∧ (2:ℚ) ≠ 0 ∧ safe_divide 1 2 = 1 / 2 :=
  ⟨by norm_num, by norm_num, by norm_num,
    (safe_divide_spec.1 1 2 (by norm_num) (by norm_num)).1 (by norm_num)⟩

/-- C5: reading `average_time` never raises: it is `total_time / repeat`
when `repeat` is nonzero and `0.0` when `repeat` is zero; a freshly
constructed Runner has `average_time = 0.0`. -/
theorem average_time_spec :
    (∀ (W : Type) (r : Runner W), r.rep ≠ 0 →
      r.average_time = r.total_time / (r.rep : ℚ)) ∧
    (∀ (W : Type) (r : Runner W), r.rep = 0 → r.average_time = 0) ∧
    (∀ (W : Type) (w : W) (nm : String), (Runner.mk0 w nm).average_time = 0) := by
  refine ⟨fun W r h => ?_, fun W r h => ?_, fun W w nm => rfl⟩
  · have : ((r.rep : ℚ)) ≠ 0 := Nat.cast_ne_zero.mpr h
    simp [Runner.average_time, safe_divide, this]
  · simp [Runner.average_time, safe_divide, h]

/-- Witness for C5: a Runner with two timed calls recorded has average
3/2, and a fresh Runner has average 0. -/
theorem average_time_spec_witness :
    (⟨0, "query-1.sql", 2, 3⟩ : Runner ℕ).rep ≠ 0 ∧
    (⟨0, "query-1.sql", 2, 3⟩ : Runner ℕ).average_time = 3 / ((2:ℕ) : ℚ) ∧
    (Runner.mk0 (0:ℕ) "query-1.sql").average_time = 0 :=
  ⟨by decide, average_time_spec.1 ℕ ⟨0, "query-1.sql", 2, 3⟩ (by decide),
    average_time_spec.2.2 ℕ 0 "query-1.sql"⟩

/-- C6: calling the entry point on a nonexistent directory path raises
`FileNotFoundError` immediately: no statement is executed (empty trace),
no discovery or Runner construction happens. -/
theorem time_queries_missing_directory (db : String → Except Err ℚ)
    (rpt : ℕ) (p : String) :
    time_queries db rpt p none =
      ([], Except.error (Err.fileNotFound
        ("Directory \x27" ++ p ++ "\x27 does not exist."))) := rfl

/-- C10: validation only checks existence: on a path that exists but is a
regular file, no `FileNotFoundError` is raised and the run proceeds past
validation into discovery (where iterating `glob` raises
`NotADirectoryError` instead). -/
theorem time_queries_exists_nondir (db : String → Except Err ℚ) (rpt : ℕ)
    (p n t : String) :
    time_queries db rpt p (some (FSNode.file n t)) =
      ([], Except.error (Err.notADirectory p)) ∧
    ∀ msg : String,
      decide (Err.notADirectory p = Err.fileNotFound msg) = false :=
  ⟨rfl, fun _ => rfl⟩

/-- C7: discovery yields exactly the regular files directly inside the
directory, in listing order, one per file regardless of suffix; every
yielded node is an immediate child and a regular file (so subdirectories
and their contents never appear). -/
theorem get_query_filepaths_spec (children : List FSNode) :
    (get_query_filepaths children).1 =
      children.filter (fun c => c.isFile) ∧
    ∀ x ∈ (get_query_filepaths children).1,
      x ∈ children ∧ x.isFile = true := by
  have h1 : ∀ cs : List FSNode,
      (get_query_filepaths cs).1 = cs.filter (fun c => c.isFile) := by
    intro cs
    induction cs with
    | nil => rfl
    | cons c cs ih =>
      by_cases hf : c.isFile <;> by_cases hs : pathSuffix c.name = ".sql" <;>
        simp [get_query_filepaths, hf, hs, ih]
  refine ⟨h1 children, fun x hx => ?_⟩
  rw [h1 children] at hx
  exact ⟨(List.mem_filter.1 hx).1, (List.mem_filter.1 hx).2⟩

/-- Witness for C7: a directory with a `.sql` file, a `.py` file and a
subdirectory holding another `.sql` file: discovery yields exactly the
two top-level files, and the `.py` file is among them. -/
theorem get_query_filepaths_spec_witness :
    (get_query_filepaths [FSNode.file "query-1.sql" "", FSNode.file "temp.py" "",
        FSNode.dir "sub-directory" [FSNode.file "query-3.sql" ""]]).1 =
      [FSNode.file "query-1.sql" "", FSNode.file "temp.py" ""] ∧
    FSNode.file "temp.py" "" ∈
      ([FSNode.file "query-1.sql" "", FSNode.file "temp.py" "",
        FSNode.dir "sub-directory" [FSNode.file "query-3.sql" ""]] : List FSNode) ∧
    (FSNode.file "temp.py" "").isFile = true := by
  have h := get_query_filepaths_spec
    [FSNode.file "query-1.sql" "", FSNode.file "temp.py" "",
      FSNode.dir "sub-directory" [FSNode.file "query-3.sql" ""]]
  have hmem : FSNode.file "temp.py" "" ∈
      (get_query_filepaths [FSNode.file "query-1.sql" "", FSNode.file "temp.py" "",
        FSNode.dir "sub-directory" [FSNode.file "query-3.sql" ""]]).1 := by
    rw [h.1]
    exact List.mem_cons_of_mem _ (List.mem_cons_self _ _)
  exact ⟨by rw [h.1]; rfl, (h.2 _ hmem).1, (h.2 _ hmem).2⟩

/-- Counterexample to C1: a fresh Runner whose work raises during a timed
invocation.  The failure does propagate, but the `repeat` counter is
updated: it was incremented (from 0 to 1) *before* the work ran, so it
does not equal its value before the invocation. -/
theorem runner_call_error_cex :
    (Runner.call failingWork (Runner.mk0 () "query-1.sql") () true).2.2 =
      some (Err.dbError "boom") ∧
    (Runner.call failingWork (Runner.mk0 () "query-1.sql") () true).1.rep = 1 ∧
    (Runner.mk0 () "query-1.sql").rep = 0 ∧
    decide ((Runner.call failingWork (Runner.mk0 () "query-1.sql") () true).1.rep
      = (Runner.mk0 () "query-1.sql").rep) = false :=
  ⟨rfl, rfl, rfl, rfl⟩

/-- C1 (amended): when the wrapped work raises during a timed invocation,
the failure propagates to the caller and `total_time` is left unchanged,
but `repeat` has already been incremented by one (the increment precedes
the timed execution of the work). -/
theorem runner_call_error_propagates {W σ : Type}
    (exec : W → σ → σ × Except Err ℚ) (r : Runner W) (s s1 : σ) (e : Err)
    (hexec : exec r.runner s = (s1, Except.error e)) :
    Runner.call exec r s true = ({ r with rep := r.rep + 1 }, s1, some e) := by
  simp [Runner.call, hexec]

/-- Witness for the amended C1, at a fresh Runner with an always-failing
work. -/
theorem runner_call_error_propagates_witness :
    Runner.call failingWork (Runner.mk0 () "query-1.sql") () true =
      ({ Runner.mk0 () "query-1.sql" with
          rep := (Runner.mk0 () "query-1.sql").rep + 1 }, (),
        some (Err.dbError "boom")) :=
  runner_call_error_propagates failingWork (Runner.mk0 () "query-1.sql")
    () () (Err.dbError "boom") rfl

/-- Counterexample to C2: a Runner constructed for a file `q.sql` whose
content was `SELECT 1` at construction time.  Invoking it after the file
content has changed to `SELECT 2` executes `SELECT 2` (the text is read
at invocation time, not at construction time), and invoking it after the
file has been removed raises `FileNotFoundError` — the behaviour is not
unchanged under later modification or removal. -/
theorem create_query_runners_reread_cex :
    create_query_runners "d" [FSNode.file "q.sql" "SELECT 1"] =
      [Runner.mk0 "d/q.sql" "q.sql"] ∧
    (Runner.call
        (queryExec (fun p => if p = "d/q.sql" then some "SELECT 2" else none)
          (fun _ => Except.ok 0))
        (Runner.mk0 "d/q.sql" "q.sql") [] true).2.1 = ["SELECT 2"] ∧
    decide ((["SELECT 2"] : List String) = ["SELECT 1"]) = false ∧
    (Runner.call (queryExec (fun _ => none) (fun _ => Except.ok 0))
        (Runner.mk0 "d/q.sql" "q.sql") [] true).2.2 =
      some (Err.fileNotFound "d/q.sql") := by
  refine ⟨rfl, by decide, rfl, rfl⟩

/-- C2 (amended): every Runner built by discovery captures the file path
(frozen via the default argument) at construction time; each invocation
reads the file text from the file system as it is at invocation time, and
the statement text passed to the database is exactly that invocation-time
content (nothing when the file no longer exists, in which case the read
raises). -/
theorem create_query_runners_capture_path {dirPath : String}
    {children : List FSNode} {r : Runner String}
    (hr : r ∈ create_query_runners dirPath children) :
    (∃ f, f ∈ (get_query_filepaths children).1 ∧
      r = Runner.mk0 (dirPath ++ "/" ++ f.name) f.name) ∧
    ∀ (fs : String → Option String) (db : String → Except Err ℚ)
      (s : List String) (b : Bool),
      (Runner.call (queryExec fs db) r s b).2.1 =
        (match fs r.runner with
         | some text => s ++ [text]
         | none => s) := by
  constructor
  · obtain ⟨f, hf, hrf⟩ := List.mem_map.1 hr
    exact ⟨f, hf, hrf.symm⟩
  · intro fs db s b
    cases hfs : fs r.runner with
    | none =>
      cases b <;> simp [Runner.call, queryExec, read_text, hfs]
    | some text =>
      cases hdb : db text <;> cases b <;>
        simp [Runner.call, queryExec, read_text, hfs, hdb]

/-- Witness for the amended C2: the Runner for `q.sql`, invoked under a
file system where the content is now `SELECT 2`, executes `SELECT 2`. -/
theorem create_query_runners_capture_path_witness :
    (Runner.call
        (queryExec (fun p => if p = "d/q.sql" then some "SELECT 2" else none)
          (fun _ => Except.ok 0))
        (Runner.mk0 "d/q.sql" "q.sql") [] true).2.1 = ["SELECT 2"] := by
  have hmem : Runner.mk0 "d/q.sql" "q.sql" ∈
      create_query_runners "d" [FSNode.file "q.sql" "SELECT 1"] :=
    List.mem_singleton.mpr rfl
  have h := (create_query_runners_capture_path hmem).2
    (fun p => if p = "d/q.sql" then some "SELECT 2" else none)
    (fun _ => Except.ok 0) [] true
  simpa using h

/-- C3: a full benchmark loop over fresh Runners with distinct work
identities completes, the priming pass leaves every Runner (its `repeat`
and `total_time` included) untouched while still executing every work
once, each Runner ends with `repeat = N` (not `N + 1`), and each work is
executed exactly `1 + N` times in total. -/
theorem run_runners_priming_excluded (ω : ℕ → ℕ → ℚ)
    (rs : List (Runner ℕ)) (N : ℕ)
    (h0 : ∀ r ∈ rs, r.rep = 0)
    (hidx : rs.map (fun r => r.runner) = List.range rs.length) :
    (run_runners (traceExec ω) rs N []).2.2 = none ∧
    (∀ s, runList (traceExec ω) false rs s =
      (rs, s ++ rs.map (fun r => r.runner), none)) ∧
    ((run_runners (traceExec ω) rs N []).1).map (fun r => r.rep) =
      List.replicate rs.length N ∧
    (∀ i, i < rs.length →
      ((run_runners (traceExec ω) rs N []).2.1).count i = 1 + N) := by
  obtain ⟨t1, t2, t3⟩ :=
    timedPasses_spec ω N rs ([] ++ rs.map (fun r => r.runner))
  rw [run_runners_eq ω rs N []]
  refine ⟨t1, fun s => runList_false_eq ω rs s, ?_, ?_⟩
  · have hrep : (timedPasses (traceExec ω) N rs
        ([] ++ rs.map (fun r => r.runner))).1.map (fun r => r.rep) =
        rs.map (fun r => r.rep + N) := by
      have := congrArg (List.map (fun p : ℕ × String × ℕ => p.2.2)) t3
      simpa [List.map_map, Function.comp] using this
    rw [hrep]
    rw [List.eq_replicate_iff]
    refine ⟨by simp, ?_⟩
    intro b hb
    obtain ⟨r, hr, hrb⟩ := List.mem_map.1 hb
    rw [← hrb, h0 r hr]
    exact Nat.zero_add N
  · intro i hi
    rw [t2, hidx]
    have hone : (List.range rs.length).count i = 1 :=
      List.count_eq_one_of_mem (List.nodup_range _) (List.mem_range.2 hi)
    simp [List.count_append, count_flatten_replicate, hone]

/-- Witness for C3: two fresh Runners, three timed passes. -/
theorem run_runners_priming_excluded_witness :
    (run_runners (traceExec (fun _ _ => 1))
        [Runner.mk0 0 "query-1.sql", Runner.mk0 1 "query-2.sql"] 3 []).2.2 =
      none ∧
    runList (traceExec (fun _ _ => 1)) false
        [Runner.mk0 0 "query-1.sql", Runner.mk0 1 "query-2.sql"] [] =
      ([Runner.mk0 0 "query-1.sql", Runner.mk0 1 "query-2.sql"],
        [] ++ [0, 1], none) ∧
    ((run_runners (traceExec (fun _ _ => 1))
        [Runner.mk0 0 "query-1.sql", Runner.mk0 1 "query-2.sql"] 3 []).1).map
      (fun r => r.rep) = List.replicate 2 3 ∧
    ((run_runners (traceExec (fun _ _ => 1))
        [Runner.mk0 0 "query-1.sql", Runner.mk0 1 "query-2.sql"] 3 []).2.1).count 0 =
      1 + 3 := by
  have h := run_runners_priming_excluded (fun _ _ => 1)
    [Runner.mk0 0 "query-1.sql", Runner.mk0 1 "query-2.sql"] 3
    (by decide) (by decide)
  exact ⟨h.1, h.2.1 [], h.2.2.1, h.2.2.2 0 (by decide)⟩

/-- C8: the timed phase performs `N` passes, each pass invoking every
Runner once in Runner-list order (the trace is `N` copies of the pass
order, concatenated); in particular two Runners with `N = 2` produce the
interleaved trace `[0, 1, 0, 1]` and not the sequential `[0, 0, 1, 1]`. -/
theorem timedPasses_interleave (ω : ℕ → ℕ → ℚ) (rs : List (Runner ℕ))
    (N : ℕ) (s : List ℕ) :
    (timedPasses (traceExec ω) N rs s).2.1 =
      s ++ (List.replicate N (rs.map (fun r => r.runner))).flatten ∧
    (timedPasses (traceExec ω) N rs s).2.2 = none ∧
    (timedPasses (traceExec ω) 2
        [Runner.mk0 0 "query-1.sql", Runner.mk0 1 "query-2.sql"] []).2.1 =
      [0, 1, 0, 1] ∧
    (((timedPasses (traceExec ω) 2
        [Runner.mk0 0 "query-1.sql", Runner.mk0 1 "query-2.sql"] []).2.1 :
      List ℕ) == [0, 0, 1, 1]) = false := by
  obtain ⟨t1, t2, _⟩ := timedPasses_spec ω N rs s
  have hconc : (timedPasses (traceExec ω) 2
      [Runner.mk0 0 "query-1.sql", Runner.mk0 1 "query-2.sql"] []).2.1 =
      [0, 1, 0, 1] := by
    obtain ⟨_, u2, _⟩ := timedPasses_spec ω 2
      [Runner.mk0 0 "query-1.sql", Runner.mk0 1 "query-2.sql"] []
    rw [u2]; rfl
  refine ⟨t2, t1, hconc, by rw [hconc]; rfl⟩

section

/- The arithmetic operations on `Rat` are irreducible by default; making
them semireducible locally lets `decide` evaluate concrete summary
lines. -/
attribute [local semireducible] Rat.add Rat.mul Rat.sub Rat.inv

/-- C9: the printed summary is one line per Runner in Runner-list order,
each line of the exact shape
`name: <average_time, 8 decimal places>s (<average_time / sum of all
averages, as a percentage, 1 decimal place>%)` with the percentage ratio
defined as 0 when the sum of averages is 0; in particular two fresh
Runners print exactly `query-1.sql: 0.00000000s (0.0%)` and
`query-2.sql: 0.00000000s (0.0%)`. -/
theorem print_runner_stats_format :
    (∀ (W : Type) (rs : List (Runner W)),
      print_runner_stats rs = rs.map (fun r =>
        r.name ++ ": " ++ fmtFixed 8 r.average_time ++ "s ("
          ++ (fmtFixed 1 ((if (rs.map Runner.average_time).sum = 0 then 0
                else r.average_time / (rs.map Runner.average_time).sum) * 100)
              ++ "%")
          ++ ")")) ∧
    print_runner_stats [Runner.mk0 () "query-1.sql", Runner.mk0 () "query-2.sql"] =
      ["query-1.sql: 0.00000000s (0.0%)", "query-2.sql: 0.00000000s (0.0%)"] := by
  constructor
  · intro W rs
    unfold print_runner_stats
    apply List.map_congr_left
    intro r _
    unfold Runner.format_runtime fmtPercent1
    by_cases h : (rs.map Runner.average_time).sum = 0 <;>
      simp [safe_divide, h]
  · decide

end
